import Mathlib

/-!
Verification development for the quasar graphics-engine scaffold.

The definitions below are a shallow embedding of the Rust sources:

* `src/engine/src/drawing/hardware.rs` — physical-device scoring,
  queue-family selection, and logical-device creation (`Hardware::new`);
* `src/engine/src/drawing/screen.rs` — swapchain construction
  (`Screen::new`);
* `src/engine/src/engine.rs` — the older swapchain construction snapshot
  (`Engine::new`);
* `src/engine/src/drawing/engine.rs` — the frame loop (`Engine::run`) and
  `window_size_dependent_setup`.

Machine details (winit windows, GPU driver calls) are represented by the
data the code actually inspects: capability flags, queue counts, driver
response codes.  Driver outcomes that the code receives from a call
(acquire result, flush result, swapchain-creation result) are inputs of
the embedded step functions.
-/

/-! ## Device selection (`Hardware::new`, hardware.rs lines 36–139) -/

/-- Device classes of `vulkano::device::physical::PhysicalDeviceType`. -/
inductive PhysicalDeviceType where
  | Other
  | IntegratedGpu
  | DiscreteGpu
  | VirtualGpu
  | Cpu
deriving DecidableEq

/-- The extension set, restricted to the one field the code consults
(`khr_swapchain`; hardware.rs lines 37–40). -/
structure DeviceExtensions where
  khr_swapchain : Bool
deriving DecidableEq

/-- Embedding of `DeviceExtensions::is_superset_of`: every extension
required by `other` is present in `self`. -/
def DeviceExtensions.is_superset_of (self other : DeviceExtensions) : Bool :=
  !other.khr_swapchain || self.khr_swapchain

/-- The engine's required device extensions (hardware.rs lines 37–40):
`khr_swapchain: true`, everything else off. -/
def device_extensions : DeviceExtensions := ⟨true⟩

/-- A queue family, carrying the capability flags the selector reads.
`supports_surface` is the value of
`family.supports_surface(&surface).unwrap_or(false)` for the one surface
in play (hardware.rs line 113). -/
structure QueueFamily where
  id : Nat
  queues_count : Nat
  supports_graphics : Bool
  supports_compute : Bool
  supports_surface : Bool
deriving DecidableEq

/-- A physical device: its enumeration index, device class, supported
extensions and queue families. -/
structure PhysicalDevice where
  index : Nat
  device_type : PhysicalDeviceType
  supported_extensions : DeviceExtensions
  queue_families : List QueueFamily
deriving DecidableEq

/-- The class score assigned in hardware.rs lines 62–68 (lower is
better): DiscreteGpu 0, IntegratedGpu 1, VirtualGpu 2, Cpu 3, Other 4. -/
def score (physical : PhysicalDevice) : Int :=
  match physical.device_type with
  | .DiscreteGpu => 0
  | .IntegratedGpu => 1
  | .VirtualGpu => 2
  | .Cpu => 3
  | .Other => 4

/-- Embedding of hardware.rs lines 43–72: keep the devices whose
supported extensions are a superset of the required ones, and pair each
with its class score. -/
def physical_candidates (devices : List PhysicalDevice) :
    List (Int × PhysicalDevice) :=
  (devices.filter
      (fun physical =>
        physical.supported_extensions.is_superset_of device_extensions)).map
    (fun physical => (score physical, physical))

/-- The predicate of hardware.rs lines 111–114: a queue family suitable
for the graphics role. -/
def graphics_suitable (family : QueueFamily) : Bool :=
  family.supports_graphics && family.supports_surface

/-- The predicate of hardware.rs line 130: a queue family suitable for
the compute role. -/
def compute_suitable (family : QueueFamily) : Bool :=
  family.supports_compute

/-- Embedding of the `filter_map` of hardware.rs lines 106–116: every
scored candidate paired with its first graphics-suitable family, when it
has one. -/
def graphics_triples (devices : List PhysicalDevice) :
    List (Int × PhysicalDevice × QueueFamily) :=
  (physical_candidates devices).filterMap
    (fun sp =>
      (sp.2.queue_families.find? graphics_suitable).map
        (fun family => (sp.1, sp.2, family)))

/-- Embedding of the `filter_map` of hardware.rs lines 125–132: every
scored candidate paired with its first compute-suitable family, when it
has one. -/
def compute_triples (devices : List PhysicalDevice) :
    List (Int × PhysicalDevice × QueueFamily) :=
  (physical_candidates devices).filterMap
    (fun sp =>
      (sp.2.queue_families.find? compute_suitable).map
        (fun family => (sp.1, sp.2, family)))

/-- Embedding of Rust's `Iterator::min_by_key`: the first element of
minimal key, `none` on the empty list. -/
def min_by_key {α : Type} (key : α → Int) : List α → Option α
  | [] => none
  | x :: xs =>
      some (xs.foldl (fun best y => if key y < key best then y else best) x)

/-- Embedding of hardware.rs lines 106–118: the graphics selection,
before the `expect`. -/
def select_graphics (devices : List PhysicalDevice) :
    Option (Int × PhysicalDevice × QueueFamily) :=
  min_by_key (fun t => t.1) (graphics_triples devices)

/-- Embedding of hardware.rs lines 125–134: the compute selection,
before the `expect`. -/
def select_compute (devices : List PhysicalDevice) :
    Option (Int × PhysicalDevice × QueueFamily) :=
  min_by_key (fun t => t.1) (compute_triples devices)

/-- The two `expect` panics of the selector (hardware.rs lines 118 and
134).  There is no other failure in the selection code. -/
inductive HardwareNewPanic where
  | graphicsQueueFamily
  | computeQueueFamily
deriving DecidableEq

/-- Embedding of the whole selection phase of `Hardware::new`: the
graphics `expect` fires first (line 118), then the compute one
(line 134). -/
def hardware_select (devices : List PhysicalDevice) :
    Except HardwareNewPanic
      ((Int × PhysicalDevice × QueueFamily) ×
        (Int × PhysicalDevice × QueueFamily)) :=
  match select_graphics devices with
  | none => .error .graphicsQueueFamily
  | some g =>
      match select_compute devices with
      | none => .error .computeQueueFamily
      | some c => .ok (g, c)

/-! ### Helper lemmas about `min_by_key` -/

theorem foldl_min_mem {α : Type} (key : α → Int) :
    ∀ (xs : List α) (a : α),
      xs.foldl (fun best y => if key y < key best then y else best) a ∈
        a :: xs := by
  intro xs
  induction xs with
  | nil => intro a; simp
  | cons x xs ih =>
      intro a
      simp only [List.foldl_cons]
      by_cases hk : key x < key a
      · rw [if_pos hk]
        rcases List.mem_cons.mp (ih x) with h | h
        · rw [h]; simp
        · simp [h]
      · rw [if_neg hk]
        rcases List.mem_cons.mp (ih a) with h | h
        · rw [h]; simp
        · simp [h]

theorem foldl_min_le {α : Type} (key : α → Int) :
    ∀ (xs : List α) (a : α),
      key (xs.foldl (fun best y => if key y < key best then y else best) a) ≤
          key a ∧
        ∀ y ∈ xs,
          key (xs.foldl (fun best y => if key y < key best then y else best)
              a) ≤ key y := by
  intro xs
  induction xs with
  | nil => intro a; simp
  | cons x xs ih =>
      intro a
      simp only [List.foldl_cons]
      by_cases hk : key x < key a
      · rw [if_pos hk]
        rcases ih x with ⟨h₁, h₂⟩
        refine ⟨le_trans h₁ (le_of_lt hk), ?_⟩
        intro y hy
        rcases List.mem_cons.mp hy with rfl | hy
        · exact h₁
        · exact h₂ y hy
      · rw [if_neg hk]
        rcases ih a with ⟨h₁, h₂⟩
        refine ⟨h₁, ?_⟩
        intro y hy
        rcases List.mem_cons.mp hy with rfl | hy
        · exact le_trans h₁ (not_lt.mp hk)
        · exact h₂ y hy

theorem min_by_key_mem {α : Type} (key : α → Int) (l : List α) (x : α)
    (h : min_by_key key l = some x) : x ∈ l := by
  cases l with
  | nil => simp [min_by_key] at h
  | cons a xs =>
      simp only [min_by_key, Option.some.injEq] at h
      subst h
      exact foldl_min_mem key xs a

theorem min_by_key_le {α : Type} (key : α → Int) (l : List α) (x : α)
    (h : min_by_key key l = some x) : ∀ y ∈ l, key x ≤ key y := by
  cases l with
  | nil => simp [min_by_key] at h
  | cons a xs =>
      simp only [min_by_key, Option.some.injEq] at h
      subst h
      intro y hy
      rcases List.mem_cons.mp hy with rfl | hy
      · exact (foldl_min_le key xs y).1
      · exact (foldl_min_le key xs a).2 y hy

theorem min_by_key_isSome {α : Type} (key : α → Int) (l : List α)
    (h : l ≠ []) : (min_by_key key l).isSome := by
  cases l with
  | nil => exact absurd rfl h
  | cons a xs => simp [min_by_key]

/-! ## Device and queue creation (`Hardware::new`, hardware.rs lines 141–216) -/

/-- Embedding of `vulkano::device::QueueCreateInfo`: the queue family and
the list of queue priorities requested from it. -/
structure QueueCreateInfo where
  family : QueueFamily
  queues : List ℚ
deriving DecidableEq

/-- Embedding of `QueueCreateInfo::family`: one queue with the default
priority 0.5. -/
def QueueCreateInfo.of_family (family : QueueFamily) : QueueCreateInfo :=
  ⟨family, [1 / 2]⟩

/-- Embedding of `vulkano::device::DeviceCreateInfo`, restricted to the
queue requests (the extension field is handled separately). -/
structure DeviceCreateInfo where
  queue_create_infos : List QueueCreateInfo
deriving DecidableEq

/-- Embedding of the device-creation case split of hardware.rs lines
141–216: the list of logical devices created (one `DeviceCreateInfo` per
`Device::new` call), as a function of the selected adapters and
families.  Adapter identity is compared with `index()` (line 149) and
family identity with `id()` (line 150). -/
def create_device_infos (graphics_physical compute_physical : PhysicalDevice)
    (graphics_family compute_family : QueueFamily) : List DeviceCreateInfo :=
  if graphics_physical.index = compute_physical.index then
    if graphics_family.id = compute_family.id then
      [⟨[⟨graphics_family, [1 / 2, 1 / 2]⟩]⟩]
    else
      [⟨[QueueCreateInfo.of_family graphics_family,
         QueueCreateInfo.of_family compute_family]⟩]
  else
    [⟨[QueueCreateInfo.of_family graphics_family]⟩,
     ⟨[QueueCreateInfo.of_family compute_family]⟩]

/-! ## Swapchain construction (`Screen::new`, screen.rs lines 27–47, and
the older `Engine::new`, engine.rs lines 88–106) -/

/-- Opaque identifier for an image format. -/
abbrev Format := Nat

/-- Opaque identifier for a color space. -/
abbrev ColorSpace := Nat

/-- Opaque identifier for a composite-alpha mode. -/
abbrev CompositeAlpha := Nat

/-- Embedding of `vulkano::swapchain::PresentMode`. -/
inductive PresentMode where
  | Immediate
  | Mailbox
  | Fifo
  | FifoRelaxed
deriving DecidableEq

/-- The surface capabilities the swapchain constructors read. -/
structure Capabilities where
  min_image_count : Nat
  current_extent : Option (Nat × Nat)
  supported_composite_alpha : List CompositeAlpha
  supported_formats : List (Format × ColorSpace)
deriving DecidableEq

/-- The swapchain parameters chosen by a constructor.  `present_mode` is
`some m` when the code sets the mode explicitly on the builder and
`none` when it leaves the builder's library default in place. -/
structure SwapchainParams where
  num_images : Nat
  format : Format
  dimensions : Nat × Nat
  usage_color_attachment : Bool
  composite_alpha : CompositeAlpha
  present_mode : Option PresentMode
deriving DecidableEq

/-- Embedding of `Screen::new` (screen.rs lines 27–47): `none` models
the `expect` panics on an empty alpha or format list.  The builder
receives `num_images`, `format`, `dimensions` (the window's inner size),
`usage` (color attachment), `sharing_mode` and `composite_alpha`; it
never receives a present mode. -/
def screen_new_params (capabilities : Capabilities)
    (window_inner_size : Nat × Nat) : Option SwapchainParams := do
  let composite_alpha ← capabilities.supported_composite_alpha.head?
  let format ← capabilities.supported_formats.head?
  some
    { num_images := capabilities.min_image_count
      format := format.1
      dimensions := window_inner_size
      usage_color_attachment := true
      composite_alpha := composite_alpha
      present_mode := none }

/-- Embedding of the swapchain construction of the older `Engine::new`
(engine.rs lines 88–106): the extent is
`capabilities.current_extent.unwrap_or([1280, 1024])` (line 90) and the
present mode is set explicitly to `Fifo` (line 102). -/
def engine_new_params (capabilities : Capabilities) :
    Option SwapchainParams := do
  let composite_alpha ← capabilities.supported_composite_alpha.head?
  let format ← capabilities.supported_formats.head?
  some
    { num_images := capabilities.min_image_count
      format := format.1
      dimensions := capabilities.current_extent.getD (1280, 1024)
      usage_color_attachment := true
      composite_alpha := composite_alpha
      present_mode := some .Fifo }

/-! ## Frame loop (`Engine::run`, drawing/engine.rs lines 40–185) -/

/-- Abstract view of a `Screen` as the frame loop observes it: the
extent of the installed swapchain and how many images it holds (every
swapchain image shares the swapchain's extent). -/
structure Screen where
  extent : Nat × Nat
  numImages : Nat
deriving DecidableEq

/-- A framebuffer, recording the extent of the swapchain image it was
built from (drawing/engine.rs lines 171–184: one framebuffer per image,
each from that image's view). -/
structure Framebuffer where
  extent : Nat × Nat
deriving DecidableEq

/-- Embedding of `window_size_dependent_setup` (drawing/engine.rs lines
163–185): reads `images[0].dimensions()` — `none` models the
out-of-bounds panic on an empty image list — sets the viewport to that
extent, and builds one framebuffer per image.  The returned pair is
(framebuffers, viewport dimensions). -/
def window_size_dependent_setup (screen : Screen) :
    Option (List Framebuffer × (Nat × Nat)) :=
  match screen.numImages with
  | 0 => none
  | _ + 1 =>
      some (List.replicate screen.numImages ⟨screen.extent⟩, screen.extent)

/-- Embedding of `vulkano::swapchain::SwapchainCreationError`, split
into the variant `Engine::run` matches on (drawing/engine.rs line 85)
and all others (line 86, a panic). -/
inductive SwapchainCreationError where
  | ImageExtentNotSupported
  | otherCreationError
deriving DecidableEq

/-- Driver response to a swapchain recreation request: accept (choosing
how many images the new swapchain holds), reject the extent, or fail
otherwise. -/
inductive RecreateOutcome where
  | accept (numImages : Nat)
  | rejectExtent
  | otherFailure
deriving DecidableEq

/-- Modelled from the spec: `Screen::recreate` is called by `Engine::run`
(drawing/engine.rs line 82) but the method itself is absent from the
sources (screen.rs only defines `Screen::new`).  Per the spec's recreate
policy, it builds a new swapchain from the current window extent and
fails with `ImageExtentNotSupported` when the driver rejects that
extent. -/
def Screen.recreate (windowExtent : Nat × Nat) (driver : RecreateOutcome) :
    Except SwapchainCreationError Screen :=
  match driver with
  | .accept n => .ok ⟨windowExtent, n⟩
  | .rejectExtent => .error .ImageExtentNotSupported
  | .otherFailure => .error .otherCreationError

/-- Driver response to `acquire_next_image` (drawing/engine.rs lines
99–107): success carries the image index and the suboptimal flag;
`outOfDate` is `AcquireError::OutOfDate`; any other error panics. -/
inductive AcquireOutcome where
  | ok (image_num : Nat) (suboptimal : Bool)
  | outOfDate
  | otherError
deriving DecidableEq

/-- Driver response to `then_signal_fence_and_flush` (drawing/engine.rs
lines 133–149). -/
inductive FlushOutcome where
  | ok
  | outOfDate
  | otherError
deriving DecidableEq

/-- The driver-supplied data one `RedrawEventsCleared` iteration can
consume: the window's current inner size, the recreation outcome (used
only when the recreate flag is set), the acquire outcome, whether
`then_execute` succeeds, and the flush outcome. -/
structure DriverEnv where
  windowExtent : Nat × Nat
  recreateOutcome : RecreateOutcome
  acquireOutcome : AcquireOutcome
  execOk : Bool
  flushOutcome : FlushOutcome
deriving DecidableEq

/-- A previous-frame completion token: either `sync::now(device)` (an
already-completed signal) or the fence of a flushed submission, which
recorded exactly what that submission waited on — the previous token
joined with the acquire signal of image `imageNum`. -/
inductive FrameToken where
  | nowSignal
  | fenceSignal (prev : FrameToken) (imageNum : Nat)
deriving DecidableEq

/-- The mutable state of the frame loop (drawing/engine.rs lines
45–60). -/
structure LoopState where
  screen : Screen
  framebuffers : List Framebuffer
  viewport : Nat × Nat
  recreate_swapchain : Bool
  previous_frame_end : Option FrameToken
deriving DecidableEq

/-- Observable actions of one iteration, in program order.
`submitPresent prev i` records a submission waiting on exactly the
previous-frame token `prev` joined with the acquire signal of image `i`,
followed by a present of image `i`. -/
inductive LoopAction where
  | cleanup
  | recreateCall
  | acquireCall
  | drawCall (framebuffer : Framebuffer)
  | submitPresent (prev : FrameToken) (imageNum : Nat)
  | logWarn
deriving DecidableEq

/-- The panic sites of one `RedrawEventsCleared` iteration. -/
inductive PanicCause where
  | tokenUnwrap
  | recreateFailed
  | setupImagesEmpty
  | acquireFailed
  | execFailed
  | framebufferIndexOOB
deriving DecidableEq

/-- Result of handling one event: continue looping with a new state and
the iteration's action trace, exit the loop, or panic. -/
inductive EventOutcome where
  | nextState (s : LoopState) (trace : List LoopAction)
  | exitLoop
  | panicked (cause : PanicCause)
deriving DecidableEq

/-- The part of an iteration from `acquire_next_image` on
(drawing/engine.rs lines 99–149).  `prevToken` is the token unwrapped at
the top of the iteration; `trace` is the actions already performed. -/
def acquire_phase (env : DriverEnv) (s : LoopState) (prevToken : FrameToken)
    (trace : List LoopAction) : EventOutcome :=
  match env.acquireOutcome with
  | .outOfDate =>
      .nextState { s with recreate_swapchain := true }
        (trace ++ [.acquireCall])
  | .otherError => .panicked .acquireFailed
  | .ok image_num suboptimal =>
      let s1 :=
        if suboptimal then { s with recreate_swapchain := true } else s
      match s1.framebuffers.get? image_num with
      | none => .panicked .framebufferIndexOOB
      | some framebuffer =>
          if env.execOk then
            let trace1 := trace ++
              [.acquireCall, .drawCall framebuffer,
               .submitPresent prevToken image_num]
            match env.flushOutcome with
            | .ok =>
                .nextState
                  { s1 with
                      previous_frame_end :=
                        some (.fenceSignal prevToken image_num) }
                  trace1
            | .outOfDate =>
                .nextState
                  { s1 with
                      recreate_swapchain := true
                      previous_frame_end := some .nowSignal }
                  trace1
            | .otherError =>
                .nextState
                  { s1 with previous_frame_end := some .nowSignal }
                  (trace1 ++ [.logWarn])
          else .panicked .execFailed

/-- Embedding of the `RedrawEventsCleared` arm of `Engine::run`
(drawing/engine.rs lines 76–150): unwrap the previous-frame token and
clean finished work, recreate the swapchain if flagged (aborting the
iteration unchanged on `ImageExtentNotSupported`), then acquire, record,
submit and present. -/
def redraw_step (env : DriverEnv) (s : LoopState) : EventOutcome :=
  match s.previous_frame_end with
  | none => .panicked .tokenUnwrap
  | some prevToken =>
      if s.recreate_swapchain then
        match Screen.recreate env.windowExtent env.recreateOutcome with
        | .error .ImageExtentNotSupported =>
            .nextState s [.cleanup, .recreateCall]
        | .error .otherCreationError => .panicked .recreateFailed
        | .ok newScreen =>
            match window_size_dependent_setup newScreen with
            | none => .panicked .setupImagesEmpty
            | some (framebuffers, viewport) =>
                acquire_phase env
                  { s with
                      screen := newScreen
                      framebuffers := framebuffers
                      viewport := viewport
                      recreate_swapchain := false }
                  prevToken [.cleanup, .recreateCall]
      else acquire_phase env s prevToken [.cleanup]

/-- The events `Engine::run` matches on (drawing/engine.rs lines
63–151). -/
inductive Event where
  | closeRequested
  | resized
  | redrawEventsCleared (env : DriverEnv)
  | otherEvent
deriving DecidableEq

/-- Embedding of the event dispatch of `Engine::run`: close requests
exit the loop, resizes set the recreate flag, `RedrawEventsCleared` runs
an iteration, everything else is ignored. -/
def handle_event : Event → LoopState → EventOutcome
  | .closeRequested, _ => .exitLoop
  | .resized, s => .nextState { s with recreate_swapchain := true } []
  | .redrawEventsCleared env, s => redraw_step env s
  | .otherEvent, s => .nextState s []

/-- Embedding of the loop initialisation (drawing/engine.rs lines
45–60): framebuffers and viewport from `window_size_dependent_setup` on
the initial screen, recreate flag clear, previous-frame token
`sync::now` (already completed). -/
def init_state (screen : Screen) : Option LoopState :=
  (window_size_dependent_setup screen).map
    (fun fv =>
      { screen := screen
        framebuffers := fv.1
        viewport := fv.2
        recreate_swapchain := false
        previous_frame_end := some .nowSignal })

/-- The swapchain/framebuffer pairing invariant: the framebuffer set
holds exactly one framebuffer per image of the installed swapchain, each
built from that swapchain's extent. -/
def pair_inv (s : LoopState) : Prop :=
  s.framebuffers = List.replicate s.screen.numImages ⟨s.screen.extent⟩

/-- The screen a successful acquire in this iteration is made against:
the recreated screen when the flag is set and the driver accepts, the
installed one otherwise. -/
def screen_at_acquire (env : DriverEnv) (s : LoopState) : Screen :=
  if s.recreate_swapchain then
    match env.recreateOutcome with
    | .accept n => ⟨env.windowExtent, n⟩
    | _ => s.screen
  else s.screen

/-! ### Helper lemmas about the selection pipeline -/

theorem mem_physical_candidates {devices : List PhysicalDevice}
    {s : Int} {p : PhysicalDevice}
    (h : (s, p) ∈ physical_candidates devices) :
    s = score p ∧ p ∈ devices ∧
      p.supported_extensions.is_superset_of device_extensions = true := by
  simp only [physical_candidates, List.mem_map, List.mem_filter] at h
  obtain ⟨q, ⟨hq1, hq2⟩, heq⟩ := h
  cases heq
  exact ⟨rfl, hq1, hq2⟩

theorem mem_graphics_triples {devices : List PhysicalDevice}
    {t : Int × PhysicalDevice × QueueFamily}
    (h : t ∈ graphics_triples devices) :
    (t.1, t.2.1) ∈ physical_candidates devices ∧
      t.2.1.queue_families.find? graphics_suitable = some t.2.2 := by
  simp only [graphics_triples, List.mem_filterMap] at h
  obtain ⟨sp, hsp, hmap⟩ := h
  obtain ⟨fam, hfind, heq⟩ := Option.map_eq_some'.mp hmap
  cases heq
  exact ⟨hsp, hfind⟩

theorem mem_compute_triples {devices : List PhysicalDevice}
    {t : Int × PhysicalDevice × QueueFamily}
    (h : t ∈ compute_triples devices) :
    (t.1, t.2.1) ∈ physical_candidates devices ∧
      t.2.1.queue_families.find? compute_suitable = some t.2.2 := by
  simp only [compute_triples, List.mem_filterMap] at h
  obtain ⟨sp, hsp, hmap⟩ := h
  obtain ⟨fam, hfind, heq⟩ := Option.map_eq_some'.mp hmap
  cases heq
  exact ⟨hsp, hfind⟩

theorem select_min_spec {triples : List (Int × PhysicalDevice × QueueFamily)}
    (h : triples ≠ []) :
    ∃ t, min_by_key (fun u => u.1) triples = some t ∧ t ∈ triples ∧
      ∀ u ∈ triples, t.1 ≤ u.1 := by
  obtain ⟨t, ht⟩ :=
    Option.isSome_iff_exists.mp (min_by_key_isSome (fun u => u.1) triples h)
  exact ⟨t, ht, min_by_key_mem _ _ _ ht, min_by_key_le _ _ _ ht⟩

theorem no_compatible_candidates {devices : List PhysicalDevice}
    (h : ∀ p ∈ devices,
        p.supported_extensions.is_superset_of device_extensions = false) :
    physical_candidates devices = [] := by
  have : devices.filter
      (fun physical =>
        physical.supported_extensions.is_superset_of device_extensions) = [] := by
    rw [List.filter_eq_nil_iff]
    intro a ha
    simp [h a ha]
  simp [physical_candidates, this]

/-! ## Claims about device selection -/

/-- C1, counterexample.  The claim assigns the software (CPU) class the
score 4, and promises a selected graphics adapter for every list holding
an extension-compatible adapter.  A CPU adapter with `khr_swapchain`
survives the filter with score 3 (not 4), and when no surviving adapter
has a graphics-and-present family the selector returns nothing. -/
theorem C1_counterexample :
    physical_candidates [⟨0, .Cpu, ⟨true⟩, []⟩] =
        [(3, ⟨0, .Cpu, ⟨true⟩, []⟩)] ∧
      (3 : Int) ≠ 4 ∧
      select_graphics [⟨0, .Cpu, ⟨true⟩, []⟩] = none := by
  decide

/-- C1 (amended): the selector keeps exactly the extension-compatible
adapters and scores them discrete = 0, integrated = 1, virtual = 2,
software (CPU) = 3, other = 4 (lower is better); for each role, whenever
some surviving adapter has a suitable family (graphics: the first family
with graphics support and presentation support on the surface; compute:
the first compute-capable family), the selector independently returns a
lowest-scored such adapter together with that family. -/
theorem C1_device_selection (devices : List PhysicalDevice) :
    (∀ (s : Int) (p : PhysicalDevice), (s, p) ∈ physical_candidates devices →
        s = score p ∧
          p.supported_extensions.is_superset_of device_extensions = true) ∧
    (∀ p : PhysicalDevice,
        (p.device_type = .DiscreteGpu → score p = 0) ∧
        (p.device_type = .IntegratedGpu → score p = 1) ∧
        (p.device_type = .VirtualGpu → score p = 2) ∧
        (p.device_type = .Cpu → score p = 3) ∧
        (p.device_type = .Other → score p = 4)) ∧
    (graphics_triples devices ≠ [] →
      ∃ s p f, select_graphics devices = some (s, p, f) ∧
        (s, p) ∈ physical_candidates devices ∧
        p.queue_families.find? graphics_suitable = some f ∧
        ∀ t ∈ graphics_triples devices, s ≤ t.1) ∧
    (compute_triples devices ≠ [] →
      ∃ s p f, select_compute devices = some (s, p, f) ∧
        (s, p) ∈ physical_candidates devices ∧
        p.queue_families.find? compute_suitable = some f ∧
        ∀ t ∈ compute_triples devices, s ≤ t.1) := by
  refine ⟨?_, ?_, ?_, ?_⟩
  · intro s p h
    obtain ⟨h1, _, h3⟩ := mem_physical_candidates h
    exact ⟨h1, h3⟩
  · intro p
    refine ⟨?_, ?_, ?_, ?_, ?_⟩ <;> intro h <;> simp [score, h]
  · intro hne
    obtain ⟨t, hsel, hmem, hmin⟩ := select_min_spec hne
    obtain ⟨hc, hf⟩ := mem_graphics_triples hmem
    exact ⟨t.1, t.2.1, t.2.2, hsel, hc, hf, hmin⟩
  · intro hne
    obtain ⟨t, hsel, hmem, hmin⟩ := select_min_spec hne
    obtain ⟨hc, hf⟩ := mem_compute_triples hmem
    exact ⟨t.1, t.2.1, t.2.2, hsel, hc, hf, hmin⟩

/-- A two-adapter list: an integrated GPU first, a discrete GPU second,
both with the swapchain extension and a fully capable queue family. -/
def two_gpu_demo : List PhysicalDevice :=
  [⟨0, .IntegratedGpu, ⟨true⟩, [⟨0, 1, true, true, true⟩]⟩,
   ⟨1, .DiscreteGpu, ⟨true⟩, [⟨0, 1, true, true, true⟩]⟩]

/-- C1, witness: on `two_gpu_demo` the graphics selection exists and is
score-minimal (it picks the discrete adapter, score 0). -/
theorem C1_witness :
    graphics_triples two_gpu_demo ≠ [] ∧
    (∃ s p f, select_graphics two_gpu_demo = some (s, p, f) ∧
      (s, p) ∈ physical_candidates two_gpu_demo ∧
      p.queue_families.find? graphics_suitable = some f ∧
      ∀ t ∈ graphics_triples two_gpu_demo, s ≤ t.1) :=
  ⟨by decide, (C1_device_selection two_gpu_demo).2.2.1 (by decide)⟩

/-- C9, counterexample.  The selection code has no `NoSuitableAdapter`
failure distinct from the queue-family one: a list whose only adapter
lacks the required extension dies on the very same
"Could not find a suitable graphics queue family" panic as a list whose
only (extension-compatible) adapter has no graphics-capable family. -/
theorem C9_counterexample :
    hardware_select [⟨0, .DiscreteGpu, ⟨false⟩, [⟨0, 8, true, true, true⟩]⟩] =
        .error .graphicsQueueFamily ∧
      hardware_select
          [⟨0, .DiscreteGpu, ⟨true⟩, [⟨0, 8, false, true, false⟩]⟩] =
        .error .graphicsQueueFamily :=
  ⟨rfl, rfl⟩

/-- C9 (amended): for every adapter list in which no adapter supports
the required extensions, selection fails with the graphics
queue-family panic ("Could not find a suitable graphics queue family")
— the same failure used when no filtered adapter has a suitable
graphics family; there is no distinct `NoSuitableAdapter` failure.  When
some filtered adapter has a graphics-and-present family but none has a
compute-capable family, selection fails with the compute queue-family
panic.  Both failures are `expect` panics at startup, with no retry. -/
theorem C9_selector_failure (devices : List PhysicalDevice) :
    ((∀ p ∈ devices,
        p.supported_extensions.is_superset_of device_extensions = false) →
      hardware_select devices = .error .graphicsQueueFamily) ∧
    (graphics_triples devices = [] →
      hardware_select devices = .error .graphicsQueueFamily) ∧
    (graphics_triples devices ≠ [] → compute_triples devices = [] →
      hardware_select devices = .error .computeQueueFamily) := by
  refine ⟨?_, ?_, ?_⟩
  · intro h
    have hc := no_compatible_candidates h
    simp [hardware_select, select_graphics, graphics_triples, hc, min_by_key]
  · intro h
    simp [hardware_select, select_graphics, h, min_by_key]
  · intro h1 h2
    obtain ⟨t, hsel, -, -⟩ := select_min_spec h1
    have hg : select_graphics devices = some t := hsel
    have hc : select_compute devices = none := by
      simp [select_compute, h2, min_by_key]
    simp [hardware_select, hg, hc]

/-- C9, witness: applies the amended failure taxonomy to a singleton
list whose adapter lacks the required extension. -/
theorem C9_witness :
    (∀ p ∈ [(⟨0, .DiscreteGpu, ⟨false⟩,
          [⟨0, 8, true, true, true⟩]⟩ : PhysicalDevice)],
        p.supported_extensions.is_superset_of device_extensions = false) ∧
    hardware_select [⟨0, .DiscreteGpu, ⟨false⟩, [⟨0, 8, true, true, true⟩]⟩] =
      .error .graphicsQueueFamily :=
  ⟨by decide,
    (C9_selector_failure
      [⟨0, .DiscreteGpu, ⟨false⟩, [⟨0, 8, true, true, true⟩]⟩]).1 (by decide)⟩

/-! ### Helper lemmas about the frame-loop step -/

/-- Whether an event outcome is a panic. -/
def is_panicked : EventOutcome → Bool
  | .panicked _ => true
  | _ => false

/-- The state after the `if suboptimal` update (drawing/engine.rs lines
109–111). -/
def suboptimal_update (s : LoopState) (sub : Bool) : LoopState :=
  if sub then { s with recreate_swapchain := true } else s

/-- Exhaustive characterization of `acquire_phase`: one disjunct per
control path of drawing/engine.rs lines 99–149. -/
theorem acquire_phase_cases (env : DriverEnv) (s : LoopState)
    (p : FrameToken) (pre : List LoopAction) :
    (env.acquireOutcome = .outOfDate ∧
      acquire_phase env s p pre =
        .nextState { s with recreate_swapchain := true }
          (pre ++ [.acquireCall])) ∨
    (env.acquireOutcome = .otherError ∧
      acquire_phase env s p pre = .panicked .acquireFailed) ∨
    (∃ i sub, env.acquireOutcome = .ok i sub ∧
      (((suboptimal_update s sub).framebuffers.get? i = none ∧
          acquire_phase env s p pre = .panicked .framebufferIndexOOB) ∨
       (∃ fb, (suboptimal_update s sub).framebuffers.get? i = some fb ∧
         ((env.execOk = false ∧
            acquire_phase env s p pre = .panicked .execFailed) ∨
          (env.execOk = true ∧
            ((env.flushOutcome = .ok ∧
                acquire_phase env s p pre =
                  .nextState
                    { suboptimal_update s sub with
                        previous_frame_end := some (.fenceSignal p i) }
                    (pre ++ [.acquireCall, .drawCall fb,
                      .submitPresent p i])) ∨
             (env.flushOutcome = .outOfDate ∧
                acquire_phase env s p pre =
                  .nextState
                    { suboptimal_update s sub with
                        recreate_swapchain := true
                        previous_frame_end := some .nowSignal }
                    (pre ++ [.acquireCall, .drawCall fb,
                      .submitPresent p i])) ∨
             (env.flushOutcome = .otherError ∧
                acquire_phase env s p pre =
                  .nextState
                    { suboptimal_update s sub with
                        previous_frame_end := some .nowSignal }
                    (pre ++ [.acquireCall, .drawCall fb,
                      .submitPresent p i, .logWarn])))))))) := by
  obtain ⟨we, ro, ao, eo, fo⟩ := env
  cases ao with
  | outOfDate => exact Or.inl ⟨rfl, rfl⟩
  | otherError => exact Or.inr (Or.inl ⟨rfl, rfl⟩)
  | ok i sub =>
      refine Or.inr (Or.inr ⟨i, sub, rfl, ?_⟩)
      cases hget : (suboptimal_update s sub).framebuffers.get? i with
      | none =>
          left
          refine ⟨rfl, ?_⟩
          unfold suboptimal_update at hget
          simp only [acquire_phase]
          rw [hget]
      | some fb =>
          right
          refine ⟨fb, rfl, ?_⟩
          unfold suboptimal_update at hget
          cases eo with
          | false =>
              left
              refine ⟨rfl, ?_⟩
              simp only [acquire_phase]
              rw [hget]
              simp
          | true =>
              right
              refine ⟨rfl, ?_⟩
              cases fo with
              | ok =>
                  refine Or.inl ⟨rfl, ?_⟩
                  simp only [acquire_phase]
                  rw [hget]
                  simp [suboptimal_update]
              | outOfDate =>
                  refine Or.inr (Or.inl ⟨rfl, ?_⟩)
                  simp only [acquire_phase]
                  rw [hget]
                  simp [suboptimal_update]
              | otherError =>
                  refine Or.inr (Or.inr ⟨rfl, ?_⟩)
                  simp only [acquire_phase]
                  rw [hget]
                  simp [suboptimal_update]

/-- Exhaustive characterization of `redraw_step` up to the acquire
phase: one disjunct per control path of drawing/engine.rs lines
76–97. -/
theorem redraw_step_cases (env : DriverEnv) (s : LoopState) :
    (s.previous_frame_end = none ∧
      redraw_step env s = .panicked .tokenUnwrap) ∨
    (∃ p, s.previous_frame_end = some p ∧
      ((s.recreate_swapchain = false ∧
          redraw_step env s = acquire_phase env s p [.cleanup]) ∨
       (s.recreate_swapchain = true ∧ env.recreateOutcome = .rejectExtent ∧
          redraw_step env s = .nextState s [.cleanup, .recreateCall]) ∨
       (s.recreate_swapchain = true ∧ env.recreateOutcome = .otherFailure ∧
          redraw_step env s = .panicked .recreateFailed) ∨
       (s.recreate_swapchain = true ∧ env.recreateOutcome = .accept 0 ∧
          redraw_step env s = .panicked .setupImagesEmpty) ∨
       (∃ n, s.recreate_swapchain = true ∧
          env.recreateOutcome = .accept (n + 1) ∧
          redraw_step env s =
            acquire_phase env
              { s with
                  screen := ⟨env.windowExtent, n + 1⟩
                  framebuffers :=
                    List.replicate (n + 1) ⟨env.windowExtent⟩
                  viewport := env.windowExtent
                  recreate_swapchain := false }
              p [.cleanup, .recreateCall]))) := by
  obtain ⟨scr, fbs, vp, flag, prev⟩ := s
  obtain ⟨we, ro, ao, eo, fo⟩ := env
  cases prev with
  | none => exact Or.inl ⟨rfl, rfl⟩
  | some p =>
      refine Or.inr ⟨p, rfl, ?_⟩
      cases flag with
      | false => exact Or.inl ⟨rfl, rfl⟩
      | true =>
          cases ro with
          | rejectExtent => exact Or.inr (Or.inl ⟨rfl, rfl, rfl⟩)
          | otherFailure =>
              exact Or.inr (Or.inr (Or.inl ⟨rfl, rfl, rfl⟩))
          | accept n =>
              cases n with
              | zero =>
                  exact Or.inr (Or.inr (Or.inr (Or.inl ⟨rfl, rfl, rfl⟩)))
              | succ m =>
                  refine Or.inr (Or.inr (Or.inr (Or.inr
                    ⟨m, rfl, rfl, ?_⟩)))
                  simp only [redraw_step, Screen.recreate,
                    window_size_dependent_setup]
                  simp

/-- The survival of an iteration does not depend on the flush outcome:
any two environments differing only in `flushOutcome` either both panic
or both continue. -/
theorem acquire_phase_flush_blind (we : Nat × Nat) (ro : RecreateOutcome)
    (ao : AcquireOutcome) (eo : Bool) (fo fo' : FlushOutcome)
    (s : LoopState) (p : FrameToken) (pre : List LoopAction) :
    is_panicked (acquire_phase ⟨we, ro, ao, eo, fo⟩ s p pre) =
      is_panicked (acquire_phase ⟨we, ro, ao, eo, fo'⟩ s p pre) := by
  cases ao with
  | outOfDate => rfl
  | otherError => rfl
  | ok i sub =>
      simp only [acquire_phase]
      cases (if sub = true then { s with recreate_swapchain := true }
          else s).framebuffers.get? i with
      | none => rfl
      | some fb => cases eo <;> cases fo <;> cases fo' <;> rfl

/-- Flush-blindness lifted to the whole iteration. -/
theorem redraw_step_flush_blind (we : Nat × Nat) (ro : RecreateOutcome)
    (ao : AcquireOutcome) (eo : Bool) (fo fo' : FlushOutcome)
    (s : LoopState) :
    is_panicked (redraw_step ⟨we, ro, ao, eo, fo⟩ s) =
      is_panicked (redraw_step ⟨we, ro, ao, eo, fo'⟩ s) := by
  obtain ⟨scr, fbs, vp, flag, prev⟩ := s
  cases prev with
  | none => rfl
  | some p =>
      cases flag with
      | false => exact acquire_phase_flush_blind we ro ao eo fo fo' _ p _
      | true =>
          cases ro with
          | rejectExtent => rfl
          | otherFailure => rfl
          | accept n =>
              cases n with
              | zero => rfl
              | succ m =>
                  simp only [redraw_step, Screen.recreate,
                    window_size_dependent_setup]
                  exact acquire_phase_flush_blind we _ ao eo fo fo' _ p _

/-- The acquire phase never exits the loop. -/
theorem acquire_phase_never_exits (env : DriverEnv) (s : LoopState)
    (p : FrameToken) (pre : List LoopAction) :
    acquire_phase env s p pre ≠ .exitLoop := by
  rcases acquire_phase_cases env s p pre with ⟨-, h2⟩ | ⟨-, h2⟩ |
    ⟨i, sub, -, ⟨-, h2⟩ | ⟨fb, -, ⟨-, h2⟩ | ⟨-, ⟨-, h2⟩ | ⟨-, h2⟩ |
      ⟨-, h2⟩⟩⟩⟩ <;> simp [h2]

/-- An iteration never exits the loop: only a close request does. -/
theorem redraw_step_never_exits (env : DriverEnv) (s : LoopState) :
    redraw_step env s ≠ .exitLoop := by
  rcases redraw_step_cases env s with ⟨-, h⟩ | ⟨p, -, hcase⟩
  · simp [h]
  · rcases hcase with ⟨-, h⟩ | ⟨-, -, h⟩ | ⟨-, -, h⟩ | ⟨-, -, h⟩ |
      ⟨n, -, -, h⟩
    · rw [h]
      exact acquire_phase_never_exits env s p [.cleanup]
    · simp [h]
    · simp [h]
    · simp [h]
    · rw [h]
      exact acquire_phase_never_exits env _ p [.cleanup, .recreateCall]

theorem suboptimal_update_screen (s : LoopState) (sub : Bool) :
    (suboptimal_update s sub).screen = s.screen := by
  cases sub <;> rfl

theorem suboptimal_update_framebuffers (s : LoopState) (sub : Bool) :
    (suboptimal_update s sub).framebuffers = s.framebuffers := by
  cases sub <;> rfl

theorem suboptimal_update_prev (s : LoopState) (sub : Bool) :
    (suboptimal_update s sub).previous_frame_end = s.previous_frame_end := by
  cases sub <;> rfl

/-- A continuing acquire phase never changes the installed screen or the
framebuffer set, and only appends to the trace. -/
theorem acquire_phase_preserves (env : DriverEnv) (s1 : LoopState)
    (p : FrameToken) (pre : List LoopAction) (s' : LoopState)
    (trace : List LoopAction)
    (hrun : acquire_phase env s1 p pre = .nextState s' trace) :
    s'.screen = s1.screen ∧ s'.framebuffers = s1.framebuffers ∧
      ∃ suffix, trace = pre ++ suffix := by
  rcases acquire_phase_cases env s1 p pre with ⟨-, h2⟩ | ⟨-, h2⟩ |
    ⟨i, sub, -, ⟨-, h2⟩ | ⟨fb, -, ⟨-, h2⟩ | ⟨-, ⟨-, h2⟩ | ⟨-, h2⟩ |
      ⟨-, h2⟩⟩⟩⟩ <;> rw [h2] at hrun <;> first
    | (simp only [EventOutcome.nextState.injEq] at hrun
       obtain ⟨e1, e2⟩ := hrun
       subst e1
       subst e2
       refine ⟨?_, ?_, _, rfl⟩ <;>
         simp [suboptimal_update_screen, suboptimal_update_framebuffers])
    | simp at hrun

/-- Flush-failure handling of the acquire phase: on `OutOfDate` the
recreate flag is set and the token replaced by `sync::now`; on any other
flush failure a warning is logged and the token likewise replaced. -/
theorem acquire_phase_flush_spec (env : DriverEnv) (s1 : LoopState)
    (p : FrameToken) (pre : List LoopAction) (s' : LoopState)
    (trace : List LoopAction)
    (hrun : acquire_phase env s1 p pre = .nextState s' trace)
    (hsubmit : ∃ q i, LoopAction.submitPresent q i ∈ trace)
    (hpre : ∀ q i, LoopAction.submitPresent q i ∉ pre) :
    (env.flushOutcome = .outOfDate →
        s'.recreate_swapchain = true ∧
          s'.previous_frame_end = some .nowSignal) ∧
    (env.flushOutcome = .otherError →
        LoopAction.logWarn ∈ trace ∧
          s'.previous_frame_end = some .nowSignal) := by
  rcases acquire_phase_cases env s1 p pre with ⟨-, h2⟩ | ⟨-, h2⟩ |
    ⟨i, sub, -, ⟨-, h2⟩ | ⟨fb, -, ⟨-, h2⟩ | ⟨-, hflush⟩⟩⟩
  · rw [h2] at hrun
    injection hrun with e1 e2
    subst e2
    obtain ⟨q, j, hm⟩ := hsubmit
    rcases List.mem_append.mp hm with hm | hm
    · exact absurd hm (hpre q j)
    · simp at hm
  · rw [h2] at hrun; simp at hrun
  · rw [h2] at hrun; simp at hrun
  · rw [h2] at hrun; simp at hrun
  · rcases hflush with ⟨hfo, h2⟩ | ⟨hfo, h2⟩ | ⟨hfo, h2⟩ <;>
      rw [h2] at hrun <;>
        simp only [EventOutcome.nextState.injEq] at hrun <;>
          obtain ⟨e1, e2⟩ := hrun
    · subst e1; subst e2
      rw [hfo]
      exact ⟨fun hcontra => by simp at hcontra,
        fun hcontra => by simp at hcontra⟩
    · subst e1; subst e2
      rw [hfo]
      refine ⟨fun hcontra => ⟨by simp, by simp⟩, fun hcontra => ?_⟩
      simp at hcontra
    · subst e1; subst e2
      rw [hfo]
      refine ⟨fun hcontra => ?_, fun hcontra => ⟨by simp, by simp⟩⟩
      simp at hcontra

/-- Token handling of the acquire phase: a continuing iteration always
ends with a retained token, and every submission in its trace waits on
exactly the token passed in (unless it was already in the prefix). -/
theorem acquire_phase_token_spec (env : DriverEnv) (s1 : LoopState)
    (p : FrameToken) (pre : List LoopAction) (s' : LoopState)
    (trace : List LoopAction)
    (hrun : acquire_phase env s1 p pre = .nextState s' trace)
    (hprev : s1.previous_frame_end = some p) :
    s'.previous_frame_end.isSome = true ∧
    (∀ q i, LoopAction.submitPresent q i ∈ trace →
        LoopAction.submitPresent q i ∈ pre ∨
          (q = p ∧ ∃ sub, env.acquireOutcome = .ok i sub)) := by
  rcases acquire_phase_cases env s1 p pre with ⟨-, h2⟩ | ⟨-, h2⟩ |
    ⟨i, sub, hao, ⟨-, h2⟩ | ⟨fb, -, ⟨-, h2⟩ | ⟨-, ⟨-, h2⟩ | ⟨-, h2⟩ |
      ⟨-, h2⟩⟩⟩⟩ <;> rw [h2] at hrun <;> first
    | (simp only [EventOutcome.nextState.injEq] at hrun
       obtain ⟨e1, e2⟩ := hrun
       subst e1
       subst e2
       constructor
       · simp [suboptimal_update_prev, hprev]
       · intro q j hm
         rcases List.mem_append.mp hm with hm | hm
         · exact Or.inl hm
         · first
             | (simp at hm
                obtain ⟨rfl, rfl⟩ := hm
                exact Or.inr ⟨rfl, sub, hao⟩)
             | simp at hm)
    | simp at hrun

/-- Acquire handling of the acquire phase: out-of-date sets the flag and
draws nothing; a suboptimal success sets the flag but still records,
submits and presents. -/
theorem acquire_phase_acquire_spec (env : DriverEnv) (s1 : LoopState)
    (p : FrameToken) (pre : List LoopAction) (s' : LoopState)
    (trace : List LoopAction)
    (hrun : acquire_phase env s1 p pre = .nextState s' trace) :
    (env.acquireOutcome = .outOfDate →
        s'.recreate_swapchain = true ∧ trace = pre ++ [.acquireCall]) ∧
    (∀ i, env.acquireOutcome = .ok i true →
        s'.recreate_swapchain = true ∧
          ∃ fb, LoopAction.drawCall fb ∈ trace ∧
            LoopAction.submitPresent p i ∈ trace) := by
  rcases acquire_phase_cases env s1 p pre with ⟨hao, h2⟩ | ⟨hao, h2⟩ |
    ⟨i, sub, hao, ⟨-, h2⟩ | ⟨fb, -, ⟨-, h2⟩ | ⟨-, ⟨-, h2⟩ | ⟨-, h2⟩ |
      ⟨-, h2⟩⟩⟩⟩ <;> rw [h2] at hrun <;> first
    | (simp only [EventOutcome.nextState.injEq] at hrun
       obtain ⟨e1, e2⟩ := hrun
       subst e1
       subst e2
       constructor
       · intro hcontra
         rw [hao] at hcontra
         first
           | exact ⟨rfl, rfl⟩
           | simp at hcontra
       · intro j hj
         rw [hao] at hj
         first
           | (obtain ⟨rfl, rfl⟩ : i = j ∧ sub = true := by
                injection hj with h3 h4; exact ⟨h3, h4⟩
              refine ⟨?_, fb, by simp, by simp⟩
              simp [suboptimal_update])
           | simp at hj)
    | simp at hrun

theorem get?_replicate_of_lt {α : Type} (a : α) {n i : Nat} (h : i < n) :
    (List.replicate n a).get? i = some a := by
  induction n generalizing i with
  | zero => exact absurd h (Nat.not_lt_zero i)
  | succ m ih =>
      cases i with
      | zero => simp [List.replicate]
      | succ j =>
          simp only [List.replicate, List.get?]
          exact ih (Nat.lt_of_succ_lt_succ h)

/-- An iteration entered with the recreate flag set performs the
recreation attempt right after cleanup, before anything else. -/
theorem redraw_step_recreates_first (env : DriverEnv) (s s' : LoopState)
    (trace : List LoopAction)
    (hflag : s.recreate_swapchain = true)
    (hrun : redraw_step env s = .nextState s' trace) :
    trace.take 2 = [.cleanup, .recreateCall] := by
  rcases redraw_step_cases env s with ⟨-, h⟩ | ⟨p, -, hcase⟩
  · rw [h] at hrun; simp at hrun
  · rcases hcase with ⟨hf, h⟩ | ⟨-, -, h⟩ | ⟨-, -, h⟩ | ⟨-, -, h⟩ |
      ⟨n, -, -, h⟩
    · rw [hflag] at hf; simp at hf
    · rw [h] at hrun
      simp only [EventOutcome.nextState.injEq] at hrun
      obtain ⟨-, e2⟩ := hrun
      rw [← e2]
      rfl
    · rw [h] at hrun; simp at hrun
    · rw [h] at hrun; simp at hrun
    · rw [h] at hrun
      obtain ⟨-, -, suffix, htr⟩ := acquire_phase_preserves _ _ _ _ _ _ hrun
      rw [htr]
      rfl

/-- With a framebuffer present at the acquired index, the acquire phase
cannot die on the framebuffer-indexing panic. -/
theorem acquire_phase_no_oob (env : DriverEnv) (s1 : LoopState)
    (p : FrameToken) (pre : List LoopAction) (i : Nat) (sub : Bool)
    (hao : env.acquireOutcome = .ok i sub)
    (hget : s1.framebuffers.get? i ≠ none) :
    acquire_phase env s1 p pre ≠ .panicked .framebufferIndexOOB := by
  rcases acquire_phase_cases env s1 p pre with ⟨-, h2⟩ | ⟨-, h2⟩ |
    ⟨j, sub2, hao2, hrest⟩
  · rw [h2]; simp
  · rw [h2]; simp
  · rcases hrest with ⟨hnone, h2⟩ | ⟨fb, -, ⟨-, h2⟩ | ⟨-, ⟨-, h2⟩ | ⟨-, h2⟩ |
      ⟨-, h2⟩⟩⟩
    · rw [hao] at hao2
      obtain ⟨rfl, rfl⟩ : i = j ∧ sub = sub2 := by
        injection hao2 with h3 h4; exact ⟨h3, h4⟩
      rw [suboptimal_update_framebuffers] at hnone
      exact absurd hnone hget
    all_goals rw [h2]; simp

/-- What `init_state` establishes: the swapchain/framebuffer pairing and
the already-completed initial token. -/
theorem init_state_spec (screen : Screen) (s0 : LoopState)
    (h : init_state screen = some s0) :
    pair_inv s0 ∧ s0.previous_frame_end = some .nowSignal ∧
      s0.screen = screen := by
  unfold init_state window_size_dependent_setup at h
  cases hn : screen.numImages with
  | zero => rw [hn] at h; simp at h
  | succ m =>
      rw [hn] at h
      have h2 : ({
          screen := screen
          framebuffers := List.replicate (m + 1) ⟨screen.extent⟩
          viewport := screen.extent
          recreate_swapchain := false
          previous_frame_end := some FrameToken.nowSignal } : LoopState) =
            s0 := Option.some.inj h
      subst h2
      refine ⟨?_, rfl, rfl⟩
      unfold pair_inv
      simp [hn]

/-! ## Claims about the frame loop -/

/-- C3: in every frame-loop iteration that reaches the present/flush
step (its trace contains a submission), an `OutOfDate` flush failure
sets the recreate flag and replaces the previous-frame token with the
already-completed `sync::now` signal; any other flush failure logs a
warning and likewise replaces the token; and whatever the flush outcome
is, the iteration neither panics nor exits the loop — the error is never
propagated to the caller. -/
theorem C3_flush_failure_containment (env : DriverEnv) (s s' : LoopState)
    (trace : List LoopAction)
    (hrun : handle_event (.redrawEventsCleared env) s = .nextState s' trace)
    (hsubmit : ∃ q i, LoopAction.submitPresent q i ∈ trace) :
    (env.flushOutcome = .outOfDate →
        s'.recreate_swapchain = true ∧
          s'.previous_frame_end = some .nowSignal) ∧
    (env.flushOutcome = .otherError →
        LoopAction.logWarn ∈ trace ∧
          s'.previous_frame_end = some .nowSignal) ∧
    (∀ fo : FlushOutcome,
        is_panicked
            (handle_event
              (.redrawEventsCleared { env with flushOutcome := fo }) s) =
          false ∧
        handle_event (.redrawEventsCleared { env with flushOutcome := fo })
            s ≠ .exitLoop) := by
  obtain ⟨we, ro, ao, eo, fo0⟩ := env
  replace hrun : redraw_step ⟨we, ro, ao, eo, fo0⟩ s = .nextState s' trace :=
    hrun
  have hp3 : ∀ fo : FlushOutcome,
      is_panicked (redraw_step ⟨we, ro, ao, eo, fo⟩ s) = false ∧
        redraw_step ⟨we, ro, ao, eo, fo⟩ s ≠ .exitLoop := by
    intro fo
    have hb := redraw_step_flush_blind we ro ao eo fo fo0 s
    rw [hrun] at hb
    exact ⟨hb, redraw_step_never_exits _ s⟩
  have hmain :
      ((⟨we, ro, ao, eo, fo0⟩ : DriverEnv).flushOutcome = .outOfDate →
          s'.recreate_swapchain = true ∧
            s'.previous_frame_end = some .nowSignal) ∧
      ((⟨we, ro, ao, eo, fo0⟩ : DriverEnv).flushOutcome = .otherError →
          LoopAction.logWarn ∈ trace ∧
            s'.previous_frame_end = some .nowSignal) := by
    rcases redraw_step_cases ⟨we, ro, ao, eo, fo0⟩ s with ⟨-, h⟩ |
      ⟨p, -, hcase⟩
    · rw [h] at hrun; simp at hrun
    · rcases hcase with ⟨-, h⟩ | ⟨-, -, h⟩ | ⟨-, -, h⟩ | ⟨-, -, h⟩ |
        ⟨n, -, -, h⟩
      · rw [h] at hrun
        exact acquire_phase_flush_spec _ _ _ _ _ _ hrun hsubmit (by simp)
      · rw [h] at hrun
        simp only [EventOutcome.nextState.injEq] at hrun
        obtain ⟨-, e2⟩ := hrun
        obtain ⟨q, j, hm⟩ := hsubmit
        rw [← e2] at hm
        simp at hm
      · rw [h] at hrun; simp at hrun
      · rw [h] at hrun; simp at hrun
      · rw [h] at hrun
        exact acquire_phase_flush_spec _ _ _ _ _ _ hrun hsubmit (by simp)
  exact ⟨hmain.1, hmain.2, hp3⟩

/-- C3, witness: a concrete iteration whose flush reports a generic
failure logs a warning and retains a fresh already-completed token. -/
theorem C3_witness :
    LoopAction.logWarn ∈
        ([.cleanup, .acquireCall, .drawCall ⟨(640, 480)⟩,
          .submitPresent .nowSignal 1, .logWarn] : List LoopAction) ∧
      (⟨⟨(640, 480), 3⟩,
          [⟨(640, 480)⟩, ⟨(640, 480)⟩, ⟨(640, 480)⟩], (640, 480), false,
          some .nowSignal⟩ : LoopState).previous_frame_end =
        some .nowSignal :=
  (C3_flush_failure_containment
      ⟨(640, 480), .accept 3, .ok 1 false, true, .otherError⟩
      ⟨⟨(640, 480), 3⟩, [⟨(640, 480)⟩, ⟨(640, 480)⟩, ⟨(640, 480)⟩],
        (640, 480), false, some .nowSignal⟩
      ⟨⟨(640, 480), 3⟩, [⟨(640, 480)⟩, ⟨(640, 480)⟩, ⟨(640, 480)⟩],
        (640, 480), false, some .nowSignal⟩
      [.cleanup, .acquireCall, .drawCall ⟨(640, 480)⟩,
        .submitPresent .nowSignal 1, .logWarn]
      rfl ⟨.nowSignal, 1, by decide⟩).2.1 rfl

/-- C4: exactly one previous-frame token is retained at every
observation point — the loop starts with `some sync::now`, every
continuing iteration ends with the token present, and every submission
in an iteration's trace waits on exactly the token retained at the start
of that iteration joined with the acquire signal of the image it
presents.  Resize and ignored events do not touch the token. -/
theorem C4_previous_frame_token (env : DriverEnv) (s s' : LoopState)
    (trace : List LoopAction)
    (hsome : s.previous_frame_end.isSome = true)
    (hrun : handle_event (.redrawEventsCleared env) s = .nextState s' trace) :
    s'.previous_frame_end.isSome = true ∧
    (∀ q i, LoopAction.submitPresent q i ∈ trace →
        s.previous_frame_end = some q ∧
          ∃ sub, env.acquireOutcome = .ok i sub) ∧
    (∀ screen s0, init_state screen = some s0 →
        s0.previous_frame_end = some FrameToken.nowSignal) ∧
    (∀ s2 : LoopState,
        handle_event .resized s2 =
            .nextState { s2 with recreate_swapchain := true } [] ∧
          handle_event .otherEvent s2 = .nextState s2 []) := by
  replace hrun : redraw_step env s = .nextState s' trace := hrun
  have hlast : ∀ s2 : LoopState,
      handle_event .resized s2 =
          .nextState { s2 with recreate_swapchain := true } [] ∧
        handle_event .otherEvent s2 = .nextState s2 [] :=
    fun s2 => ⟨rfl, rfl⟩
  have hinit : ∀ screen s0, init_state screen = some s0 →
      s0.previous_frame_end = some FrameToken.nowSignal :=
    fun screen s0 h0 => (init_state_spec screen s0 h0).2.1
  rcases redraw_step_cases env s with ⟨hz, -⟩ | ⟨p, hp, hcase⟩
  · rw [hz] at hsome; simp at hsome
  · rcases hcase with ⟨-, h⟩ | ⟨-, -, h⟩ | ⟨-, -, h⟩ | ⟨-, -, h⟩ |
      ⟨n, -, -, h⟩
    · rw [h] at hrun
      obtain ⟨h1, h2⟩ := acquire_phase_token_spec _ _ _ _ _ _ hrun hp
      refine ⟨h1, ?_, hinit, hlast⟩
      intro q i hm
      rcases h2 q i hm with hm2 | ⟨rfl, hex⟩
      · simp at hm2
      · exact ⟨hp, hex⟩
    · rw [h] at hrun
      simp only [EventOutcome.nextState.injEq] at hrun
      obtain ⟨e1, e2⟩ := hrun
      subst e1
      refine ⟨hsome, ?_, hinit, hlast⟩
      intro q i hm
      rw [← e2] at hm
      simp at hm
    · rw [h] at hrun; simp at hrun
    · rw [h] at hrun; simp at hrun
    · rw [h] at hrun
      obtain ⟨h1, h2⟩ := acquire_phase_token_spec _ _ _ _ _ _ hrun hp
      refine ⟨h1, ?_, hinit, hlast⟩
      intro q i hm
      rcases h2 q i hm with hm2 | ⟨rfl, hex⟩
      · simp at hm2
      · exact ⟨hp, hex⟩

/-- C4, witness: a concrete successful iteration retains a token, and
its one submission waited on the start-of-iteration token joined with
the acquire signal of image 1. -/
theorem C4_witness :
    (⟨⟨(640, 480), 3⟩, [⟨(640, 480)⟩, ⟨(640, 480)⟩, ⟨(640, 480)⟩],
        (640, 480), false,
        some (.fenceSignal .nowSignal 1)⟩ :
          LoopState).previous_frame_end.isSome = true ∧
    ((⟨⟨(640, 480), 3⟩, [⟨(640, 480)⟩, ⟨(640, 480)⟩, ⟨(640, 480)⟩],
        (640, 480), false, some .nowSignal⟩ :
          LoopState).previous_frame_end = some .nowSignal ∧
      ∃ sub, (⟨(640, 480), .accept 3, .ok 1 false, true, .ok⟩ :
          DriverEnv).acquireOutcome = .ok 1 sub) :=
  ⟨(C4_previous_frame_token
      ⟨(640, 480), .accept 3, .ok 1 false, true, .ok⟩
      ⟨⟨(640, 480), 3⟩, [⟨(640, 480)⟩, ⟨(640, 480)⟩, ⟨(640, 480)⟩],
        (640, 480), false, some .nowSignal⟩
      ⟨⟨(640, 480), 3⟩, [⟨(640, 480)⟩, ⟨(640, 480)⟩, ⟨(640, 480)⟩],
        (640, 480), false, some (.fenceSignal .nowSignal 1)⟩
      [.cleanup, .acquireCall, .drawCall ⟨(640, 480)⟩,
        .submitPresent .nowSignal 1]
      rfl rfl).1,
    (C4_previous_frame_token
      ⟨(640, 480), .accept 3, .ok 1 false, true, .ok⟩
      ⟨⟨(640, 480), 3⟩, [⟨(640, 480)⟩, ⟨(640, 480)⟩, ⟨(640, 480)⟩],
        (640, 480), false, some .nowSignal⟩
      ⟨⟨(640, 480), 3⟩, [⟨(640, 480)⟩, ⟨(640, 480)⟩, ⟨(640, 480)⟩],
        (640, 480), false, some (.fenceSignal .nowSignal 1)⟩
      [.cleanup, .acquireCall, .drawCall ⟨(640, 480)⟩,
        .submitPresent .nowSignal 1]
      rfl rfl).2.1 .nowSignal 1 (by decide)⟩

/-- C5: in a continuing iteration in which image acquisition reports
out-of-date, the recreate flag ends set and the iteration performs no
draw, no submission and no present; when acquisition succeeds but
reports suboptimal, the iteration still records, submits and presents
(whenever it reached the acquire call) and the flag ends set; and every
iteration entered with the recreate flag set performs recreation right
after cleanup, before acquiring again. -/
theorem C5_acquire_step_policy (env : DriverEnv) (s s' : LoopState)
    (trace : List LoopAction)
    (hrun : handle_event (.redrawEventsCleared env) s = .nextState s' trace) :
    (env.acquireOutcome = .outOfDate →
        s'.recreate_swapchain = true ∧
          (∀ q i, LoopAction.submitPresent q i ∉ trace) ∧
          (∀ fb, LoopAction.drawCall fb ∉ trace)) ∧
    (∀ i, env.acquireOutcome = .ok i true →
        s'.recreate_swapchain = true ∧
          (LoopAction.acquireCall ∈ trace →
            ∃ fb, LoopAction.drawCall fb ∈ trace ∧
              ∃ q, LoopAction.submitPresent q i ∈ trace)) ∧
    (s.recreate_swapchain = true →
        trace.take 2 = [.cleanup, .recreateCall]) := by
  replace hrun : redraw_step env s = .nextState s' trace := hrun
  have htake : s.recreate_swapchain = true →
      trace.take 2 = [.cleanup, .recreateCall] :=
    fun hf => redraw_step_recreates_first env s s' trace hf hrun
  rcases redraw_step_cases env s with ⟨-, h⟩ | ⟨p, hp, hcase⟩
  · rw [h] at hrun; simp at hrun
  · rcases hcase with ⟨-, h⟩ | ⟨hflag, -, h⟩ | ⟨-, -, h⟩ | ⟨-, -, h⟩ |
      ⟨n, -, -, h⟩
    · rw [h] at hrun
      obtain ⟨hout, hsub⟩ := acquire_phase_acquire_spec _ _ _ _ _ _ hrun
      refine ⟨?_, ?_, htake⟩
      · intro hao
        obtain ⟨h1, h2⟩ := hout hao
        subst h2
        exact ⟨h1, by simp, by simp⟩
      · intro i hao
        obtain ⟨h1, fb, h2, h3⟩ := hsub i hao
        exact ⟨h1, fun _ => ⟨fb, h2, p, h3⟩⟩
    · rw [h] at hrun
      simp only [EventOutcome.nextState.injEq] at hrun
      obtain ⟨e1, e2⟩ := hrun
      subst e1
      subst e2
      refine ⟨?_, ?_, fun _ => rfl⟩
      · intro _
        exact ⟨hflag, by simp, by simp⟩
      · intro i _
        exact ⟨hflag, by simp⟩
    · rw [h] at hrun; simp at hrun
    · rw [h] at hrun; simp at hrun
    · rw [h] at hrun
      obtain ⟨hout, hsub⟩ := acquire_phase_acquire_spec _ _ _ _ _ _ hrun
      refine ⟨?_, ?_, htake⟩
      · intro hao
        obtain ⟨h1, h2⟩ := hout hao
        subst h2
        exact ⟨h1, by simp, by simp⟩
      · intro i hao
        obtain ⟨h1, fb, h2, h3⟩ := hsub i hao
        exact ⟨h1, fun _ => ⟨fb, h2, p, h3⟩⟩

/-- C5, witness: a concrete iteration whose acquire reports out-of-date
ends with the flag set and submitted nothing. -/
theorem C5_witness :
    (⟨⟨(640, 480), 2⟩, [⟨(640, 480)⟩, ⟨(640, 480)⟩], (640, 480), true,
        some .nowSignal⟩ : LoopState).recreate_swapchain = true ∧
    LoopAction.submitPresent .nowSignal 0 ∉
      ([.cleanup, .acquireCall] : List LoopAction) :=
  ⟨((C5_acquire_step_policy
      ⟨(640, 480), .accept 3, .outOfDate, true, .ok⟩
      ⟨⟨(640, 480), 2⟩, [⟨(640, 480)⟩, ⟨(640, 480)⟩], (640, 480), false,
        some .nowSignal⟩
      ⟨⟨(640, 480), 2⟩, [⟨(640, 480)⟩, ⟨(640, 480)⟩], (640, 480), true,
        some .nowSignal⟩
      [.cleanup, .acquireCall] rfl).1 rfl).1,
    ((C5_acquire_step_policy
      ⟨(640, 480), .accept 3, .outOfDate, true, .ok⟩
      ⟨⟨(640, 480), 2⟩, [⟨(640, 480)⟩, ⟨(640, 480)⟩], (640, 480), false,
        some .nowSignal⟩
      ⟨⟨(640, 480), 2⟩, [⟨(640, 480)⟩, ⟨(640, 480)⟩], (640, 480), true,
        some .nowSignal⟩
      [.cleanup, .acquireCall] rfl).1 rfl).2.1 .nowSignal 0⟩

/-- C6: when recreation fails because the driver rejects the new extent,
the iteration ends with the state exactly unchanged — the previous
swapchain and framebuffer set stay installed, the recreate flag is not
cleared — the trace holds only the cleanup and the recreation attempt
(no frame drawn), and any following continuing iteration retries the
recreation right after cleanup. -/
theorem C6_recreate_failure_atomicity (env : DriverEnv) (s : LoopState)
    (hflag : s.recreate_swapchain = true)
    (hrej : env.recreateOutcome = .rejectExtent)
    (hsome : s.previous_frame_end.isSome = true) :
    handle_event (.redrawEventsCleared env) s =
      .nextState s [.cleanup, .recreateCall] ∧
    (∀ env2 s2 t2,
        handle_event (.redrawEventsCleared env2) s = .nextState s2 t2 →
          t2.take 2 = [.cleanup, .recreateCall]) := by
  constructor
  · rcases redraw_step_cases env s with ⟨hz, -⟩ | ⟨p, hp, hcase⟩
    · rw [hz] at hsome; simp at hsome
    · rcases hcase with ⟨hf, -⟩ | ⟨-, -, h⟩ | ⟨-, hro, -⟩ | ⟨-, hro, -⟩ |
        ⟨n, -, hro, -⟩
      · rw [hflag] at hf; simp at hf
      · exact h
      · rw [hrej] at hro; simp at hro
      · rw [hrej] at hro; simp at hro
      · rw [hrej] at hro; simp at hro
  · intro env2 s2 t2 hrun2
    exact redraw_step_recreates_first env2 s s2 t2 hflag hrun2

/-- C6, witness: a concrete flagged iteration with a rejected extent
leaves the state untouched. -/
theorem C6_witness :
    handle_event
        (.redrawEventsCleared ⟨(640, 480), .rejectExtent, .ok 0 false,
          true, .ok⟩)
        ⟨⟨(300, 200), 2⟩, [⟨(300, 200)⟩, ⟨(300, 200)⟩], (300, 200), true,
          some .nowSignal⟩ =
      .nextState
        ⟨⟨(300, 200), 2⟩, [⟨(300, 200)⟩, ⟨(300, 200)⟩], (300, 200), true,
          some .nowSignal⟩
        [.cleanup, .recreateCall] :=
  (C6_recreate_failure_atomicity
    ⟨(640, 480), .rejectExtent, .ok 0 false, true, .ok⟩
    ⟨⟨(300, 200), 2⟩, [⟨(300, 200)⟩, ⟨(300, 200)⟩], (300, 200), true,
      some .nowSignal⟩
    rfl rfl rfl).1

/-- C7: the swapchain/framebuffer pairing invariant — one framebuffer
per image of the installed swapchain, each built from the swapchain's
extent — is established by the loop initialisation and preserved by
every continuing step of the event loop; the recreate block replaces
swapchain and framebuffer set together in the same step, so the pair is
never replaced independently. -/
theorem C7_swapchain_framebuffer_pairing (e : Event) (s s' : LoopState)
    (trace : List LoopAction)
    (hinv : pair_inv s)
    (hrun : handle_event e s = .nextState s' trace) :
    pair_inv s' ∧
    (∀ screen s0, init_state screen = some s0 → pair_inv s0) := by
  refine ⟨?_, fun screen s0 h0 => (init_state_spec screen s0 h0).1⟩
  cases e with
  | closeRequested => simp [handle_event] at hrun
  | resized =>
      simp only [handle_event, EventOutcome.nextState.injEq] at hrun
      obtain ⟨e1, -⟩ := hrun
      subst e1
      unfold pair_inv at hinv ⊢
      exact hinv
  | otherEvent =>
      simp only [handle_event, EventOutcome.nextState.injEq] at hrun
      obtain ⟨e1, -⟩ := hrun
      subst e1
      exact hinv
  | redrawEventsCleared env =>
      replace hrun : redraw_step env s = .nextState s' trace := hrun
      rcases redraw_step_cases env s with ⟨-, h⟩ | ⟨p, hp, hcase⟩
      · rw [h] at hrun; simp at hrun
      · rcases hcase with ⟨-, h⟩ | ⟨-, -, h⟩ | ⟨-, -, h⟩ | ⟨-, -, h⟩ |
          ⟨n, -, -, h⟩
        · rw [h] at hrun
          obtain ⟨hscr, hfbs, -⟩ := acquire_phase_preserves _ _ _ _ _ _ hrun
          unfold pair_inv at hinv ⊢
          rw [hscr, hfbs]
          exact hinv
        · rw [h] at hrun
          simp only [EventOutcome.nextState.injEq] at hrun
          obtain ⟨e1, -⟩ := hrun
          subst e1
          exact hinv
        · rw [h] at hrun; simp at hrun
        · rw [h] at hrun; simp at hrun
        · rw [h] at hrun
          obtain ⟨hscr, hfbs, -⟩ := acquire_phase_preserves _ _ _ _ _ _ hrun
          unfold pair_inv
          rw [hscr, hfbs]

/-- C7, witness: a concrete recreating iteration ends with the pairing
invariant holding for the new swapchain and its three new
framebuffers. -/
theorem C7_witness :
    pair_inv
      ⟨⟨(640, 480), 3⟩, [⟨(640, 480)⟩, ⟨(640, 480)⟩, ⟨(640, 480)⟩],
        (640, 480), false,
        some (.fenceSignal .nowSignal 1)⟩ :=
  (C7_swapchain_framebuffer_pairing
    (.redrawEventsCleared ⟨(640, 480), .accept 3, .ok 1 false, true, .ok⟩)
    ⟨⟨(300, 200), 2⟩, [⟨(300, 200)⟩, ⟨(300, 200)⟩], (300, 200), true,
      some .nowSignal⟩
    ⟨⟨(640, 480), 3⟩, [⟨(640, 480)⟩, ⟨(640, 480)⟩, ⟨(640, 480)⟩],
      (640, 480), false, some (.fenceSignal .nowSignal 1)⟩
    [.cleanup, .recreateCall, .acquireCall, .drawCall ⟨(640, 480)⟩,
      .submitPresent .nowSignal 1]
    rfl rfl).1

/-- C10: under the driver guarantee that a successful acquire returns an
index below the image count of the swapchain it was made against, an
iteration satisfying the pairing invariant can never hit the
framebuffer-indexing panic, and every continuing such iteration keeps
one framebuffer per image of that swapchain, so the acquired index stays
in bounds. -/
theorem C10_framebuffer_index_safety (env : DriverEnv) (s : LoopState)
    (i : Nat) (sub : Bool)
    (hinv : pair_inv s)
    (hacq : env.acquireOutcome = .ok i sub)
    (hlt : i < (screen_at_acquire env s).numImages) :
    handle_event (.redrawEventsCleared env) s ≠
        .panicked .framebufferIndexOOB ∧
    (∀ s' trace,
        handle_event (.redrawEventsCleared env) s = .nextState s' trace →
          s'.framebuffers.length = (screen_at_acquire env s).numImages ∧
            i < s'.framebuffers.length) := by
  rcases redraw_step_cases env s with ⟨-, h⟩ | ⟨p, hp, hcase⟩
  · constructor
    · show redraw_step env s ≠ _
      rw [h]; simp
    · intro s' trace hrun
      replace hrun : redraw_step env s = .nextState s' trace := hrun
      rw [h] at hrun; simp at hrun
  · rcases hcase with ⟨hf, h⟩ | ⟨hf, hro, h⟩ | ⟨hf, hro, h⟩ | ⟨hf, hro, h⟩ |
      ⟨n, hf, hro, h⟩
    · have hsc : screen_at_acquire env s = s.screen := by
        unfold screen_at_acquire
        rw [hf]
        simp
      rw [hsc] at hlt
      have hget : s.framebuffers.get? i ≠ none := by
        unfold pair_inv at hinv
        rw [hinv, get?_replicate_of_lt _ hlt]
        simp
      constructor
      · show redraw_step env s ≠ _
        rw [h]
        exact acquire_phase_no_oob env s p [.cleanup] i sub hacq hget
      · intro s' trace hrun
        replace hrun : redraw_step env s = .nextState s' trace := hrun
        rw [h] at hrun
        obtain ⟨-, hfbs, -⟩ := acquire_phase_preserves _ _ _ _ _ _ hrun
        unfold pair_inv at hinv
        rw [hsc, hfbs, hinv]
        simp [hlt]
    · have hsc : screen_at_acquire env s = s.screen := by
        unfold screen_at_acquire
        rw [hf, hro]
        simp
      rw [hsc] at hlt
      constructor
      · show redraw_step env s ≠ _
        rw [h]; simp
      · intro s' trace hrun
        replace hrun : redraw_step env s = .nextState s' trace := hrun
        rw [h] at hrun
        simp only [EventOutcome.nextState.injEq] at hrun
        obtain ⟨e1, -⟩ := hrun
        subst e1
        unfold pair_inv at hinv
        rw [hsc, hinv]
        simp [hlt]
    · constructor
      · show redraw_step env s ≠ _
        rw [h]; simp
      · intro s' trace hrun
        replace hrun : redraw_step env s = .nextState s' trace := hrun
        rw [h] at hrun; simp at hrun
    · have hsc : screen_at_acquire env s = ⟨env.windowExtent, 0⟩ := by
        unfold screen_at_acquire
        rw [hf, hro]
        simp
      rw [hsc] at hlt
      exact absurd hlt (Nat.not_lt_zero i)
    · have hsc : screen_at_acquire env s = ⟨env.windowExtent, n + 1⟩ := by
        unfold screen_at_acquire
        rw [hf, hro]
        simp
      rw [hsc] at hlt
      have hget :
          (List.replicate (n + 1)
              (⟨env.windowExtent⟩ : Framebuffer)).get? i ≠ none := by
        rw [get?_replicate_of_lt _ hlt]
        simp
      constructor
      · show redraw_step env s ≠ _
        rw [h]
        exact acquire_phase_no_oob env _ p [.cleanup, .recreateCall] i sub
          hacq hget
      · intro s' trace hrun
        replace hrun : redraw_step env s = .nextState s' trace := hrun
        rw [h] at hrun
        obtain ⟨-, hfbs, -⟩ := acquire_phase_preserves _ _ _ _ _ _ hrun
        rw [hsc, hfbs]
        simp [hlt]

/-- C10, witness: a concrete iteration acquiring image 1 of a
three-image swapchain cannot hit the indexing panic. -/
theorem C10_witness :
    handle_event
        (.redrawEventsCleared ⟨(640, 480), .accept 3, .ok 1 false, true,
          .ok⟩)
        ⟨⟨(640, 480), 3⟩, [⟨(640, 480)⟩, ⟨(640, 480)⟩, ⟨(640, 480)⟩],
          (640, 480), false, some .nowSignal⟩ ≠
      .panicked .framebufferIndexOOB :=
  (C10_framebuffer_index_safety
    ⟨(640, 480), .accept 3, .ok 1 false, true, .ok⟩
    ⟨⟨(640, 480), 3⟩, [⟨(640, 480)⟩, ⟨(640, 480)⟩, ⟨(640, 480)⟩],
      (640, 480), false, some .nowSignal⟩
    1 false rfl rfl (by decide)).1

/-! ## Claims about device creation and swapchain construction -/

/-- C2, counterexample.  The claim promises one queue when the shared
family exposes fewer than two queues; the code never inspects
`queues_count` and always requests two priorities (0.5/0.5) in the
same-adapter/same-family case.  Here the family exposes a single queue,
yet the one device's one family entry requests two priorities. -/
theorem C2_counterexample :
    (⟨0, 1, true, true, true⟩ : QueueFamily).queues_count = 1 ∧
    create_device_infos
        ⟨0, .DiscreteGpu, ⟨true⟩, [⟨0, 1, true, true, true⟩]⟩
        ⟨0, .DiscreteGpu, ⟨true⟩, [⟨0, 1, true, true, true⟩]⟩
        ⟨0, 1, true, true, true⟩ ⟨0, 1, true, true, true⟩ =
      [⟨[⟨⟨0, 1, true, true, true⟩, [1 / 2, 1 / 2]⟩]⟩] ∧
    ([(1 : ℚ) / 2, 1 / 2].length = 2 ∧ (2 : Nat) ≠ 1) :=
  ⟨rfl, rfl, rfl, by decide⟩

/-- C2 (amended): when the selected graphics and compute adapters are
the same (equal `index()`) and the families are the same (equal `id()`),
exactly one logical device is created with one queue-family entry
requesting two queue priorities (0.5/0.5) unconditionally — the family's
queue count is never consulted; same adapter with different families
gives one logical device with two family entries of one queue (priority
0.5) each; different adapters give two logical devices with one
single-queue family entry each. -/
theorem C2_device_factory (gp cp : PhysicalDevice) (gf cf : QueueFamily) :
    (gp.index = cp.index → gf.id = cf.id →
      create_device_infos gp cp gf cf = [⟨[⟨gf, [1 / 2, 1 / 2]⟩]⟩]) ∧
    (gp.index = cp.index → gf.id ≠ cf.id →
      create_device_infos gp cp gf cf =
        [⟨[⟨gf, [1 / 2]⟩, ⟨cf, [1 / 2]⟩]⟩]) ∧
    (gp.index ≠ cp.index →
      create_device_infos gp cp gf cf =
        [⟨[⟨gf, [1 / 2]⟩]⟩, ⟨[⟨cf, [1 / 2]⟩]⟩]) := by
  refine ⟨?_, ?_, ?_⟩
  · intro h1 h2
    simp [create_device_infos, h1, h2]
  · intro h1 h2
    simp [create_device_infos, h1, h2, QueueCreateInfo.of_family]
  · intro h1
    simp [create_device_infos, h1, QueueCreateInfo.of_family]

/-- C2, witness: the same-adapter/same-family case on a concrete
two-queue family yields one device with one two-priority entry. -/
theorem C2_witness :
    ((⟨0, .DiscreteGpu, ⟨true⟩, [⟨0, 2, true, true, true⟩]⟩ :
        PhysicalDevice).index =
      (⟨0, .DiscreteGpu, ⟨true⟩, [⟨0, 2, true, true, true⟩]⟩ :
        PhysicalDevice).index) ∧
    create_device_infos
        ⟨0, .DiscreteGpu, ⟨true⟩, [⟨0, 2, true, true, true⟩]⟩
        ⟨0, .DiscreteGpu, ⟨true⟩, [⟨0, 2, true, true, true⟩]⟩
        ⟨0, 2, true, true, true⟩ ⟨0, 2, true, true, true⟩ =
      [⟨[⟨⟨0, 2, true, true, true⟩, [1 / 2, 1 / 2]⟩]⟩] :=
  ⟨rfl, (C2_device_factory _ _ _ _).1 rfl rfl⟩

/-- C8, counterexample.  `Screen::new` never sets a present mode on the
builder (the claim says FIFO is fixed), and the older `Engine::new`
takes its extent from the adapter-reported current extent with a
1280×1024 fallback, ignoring the window client size (here 800×600). -/
theorem C8_counterexample :
    screen_new_params ⟨2, none, [0], [(0, 0)]⟩ (800, 600) =
        some ⟨2, 0, (800, 600), true, 0, none⟩ ∧
    engine_new_params ⟨2, none, [0], [(0, 0)]⟩ =
        some ⟨2, 0, (1280, 1024), true, 0, some .Fifo⟩ ∧
    ((none : Option PresentMode) ≠ some .Fifo ∧
      ((1280, 1024) : Nat × Nat) ≠ (800, 600)) :=
  ⟨rfl, rfl, by decide⟩

/-- C8 (amended): both constructors deterministically pick image count =
adapter-reported minimum, format = first adapter-reported supported
format, composite alpha = first adapter-reported supported mode, and
color-attachment-only usage; `Screen::new` uses the current window
client size as extent but leaves the present mode to the library
default, while the older `Engine::new` fixes the blocking FIFO mode
explicitly but uses the adapter-reported current extent, falling back to
1280×1024 when the adapter reports none. -/
theorem C8_swapchain_construction (caps : Capabilities)
    (wsize : Nat × Nat) (params : SwapchainParams) :
    (screen_new_params caps wsize = some params →
        params.num_images = caps.min_image_count ∧
        (∃ cs, caps.supported_formats.head? = some (params.format, cs)) ∧
        caps.supported_composite_alpha.head? = some params.composite_alpha ∧
        params.dimensions = wsize ∧
        params.usage_color_attachment = true ∧
        params.present_mode = none) ∧
    (engine_new_params caps = some params →
        params.num_images = caps.min_image_count ∧
        (∃ cs, caps.supported_formats.head? = some (params.format, cs)) ∧
        caps.supported_composite_alpha.head? = some params.composite_alpha ∧
        params.dimensions = caps.current_extent.getD (1280, 1024) ∧
        params.usage_color_attachment = true ∧
        params.present_mode = some .Fifo) ∧
    (caps.supported_composite_alpha ≠ [] → caps.supported_formats ≠ [] →
        (screen_new_params caps wsize).isSome = true ∧
          (engine_new_params caps).isSome = true) := by
  cases hca : caps.supported_composite_alpha with
  | nil =>
      refine ⟨?_, ?_, ?_⟩
      · intro h
        simp [screen_new_params, hca] at h
      · intro h
        simp [engine_new_params, hca] at h
      · intro h1 h2
        exact absurd rfl h1
  | cons a as =>
      cases hcf : caps.supported_formats with
      | nil =>
          refine ⟨?_, ?_, ?_⟩
          · intro h
            simp [screen_new_params, hca, hcf] at h
          · intro h
            simp [engine_new_params, hca, hcf] at h
          · intro h1 h2
            exact absurd rfl h2
      | cons f fs =>
          have hs : screen_new_params caps wsize = some
              { num_images := caps.min_image_count
                format := f.1
                dimensions := wsize
                usage_color_attachment := true
                composite_alpha := a
                present_mode := none } := by
            simp [screen_new_params, hca, hcf]
          have he : engine_new_params caps = some
              { num_images := caps.min_image_count
                format := f.1
                dimensions := caps.current_extent.getD (1280, 1024)
                usage_color_attachment := true
                composite_alpha := a
                present_mode := some .Fifo } := by
            simp [engine_new_params, hca, hcf]
          refine ⟨?_, ?_, ?_⟩
          · intro h
            rw [hs] at h
            have h2 := Option.some.inj h
            subst h2
            exact ⟨rfl, ⟨f.2, rfl⟩, rfl, rfl, rfl, rfl⟩
          · intro h
            rw [he] at h
            have h2 := Option.some.inj h
            subst h2
            exact ⟨rfl, ⟨f.2, rfl⟩, rfl, rfl, rfl, rfl⟩
          · intro h1 h2
            exact ⟨by rw [hs]; rfl, by rw [he]; rfl⟩

/-- C8, witness: the amended construction policy at concrete
capabilities (minimum 2 images, one alpha, one format, no reported
current extent) and an 800×600 window. -/
theorem C8_witness :
    (⟨2, 0, (800, 600), true, 0, none⟩ : SwapchainParams).num_images =
        (⟨2, none, [0], [(0, 0)]⟩ : Capabilities).min_image_count ∧
    (∃ cs,
        (⟨2, none, [0], [(0, 0)]⟩ :
            Capabilities).supported_formats.head? =
          some ((⟨2, 0, (800, 600), true, 0, none⟩ :
            SwapchainParams).format, cs)) ∧
    (⟨2, none, [0], [(0, 0)]⟩ :
        Capabilities).supported_composite_alpha.head? =
      some (⟨2, 0, (800, 600), true, 0, none⟩ :
        SwapchainParams).composite_alpha ∧
    (⟨2, 0, (800, 600), true, 0, none⟩ : SwapchainParams).dimensions =
      (800, 600) ∧
    (⟨2, 0, (800, 600), true, 0, none⟩ :
        SwapchainParams).usage_color_attachment = true ∧
    (⟨2, 0, (800, 600), true, 0, none⟩ : SwapchainParams).present_mode =
      none :=
  (C8_swapchain_construction ⟨2, none, [0], [(0, 0)]⟩ (800, 600)
    ⟨2, 0, (800, 600), true, 0, none⟩).1 rfl
